import Mathlib

/-!
Verification of the Farm Tower Defense battle/progression engine
(`farm_tower_defense.py`) against its natural-language specification.

The Python source is shallowly embedded: Python `int` is `ℤ`, Python
`float` percentages that are exact small decimals are `ℚ`, Python's
`round` (banker's rounding) is `pyRound`, Python's `int()` truncation
is `pyInt`, and every stateful method becomes a pure function from the
old state to the new state (paired with its return value and/or the
list of lines written to the IO layer).  Randomness is made explicit:
each draw a method makes from a `random.Random` instance becomes an
argument of the corresponding Lean function, so which RNG instance a
call site reads from is part of the embedding and is documented at
each definition.
-/

/-- Python `round`: round half to even (banker's rounding), on an exact
rational input.  (`Rat.floor` is used because it evaluates by `decide`;
`ratFloor_eq` bridges to `Int.floor`.) -/
def pyRound (x : ℚ) : ℤ :=
  let f := Rat.floor x
  let r := x - (f : ℚ)
  if r < 1/2 then f
  else if 1/2 < r then f + 1
  else if f % 2 = 0 then f else f + 1

/-- Python `int()` applied to a number: truncation toward zero. -/
def pyInt (x : ℚ) : ℤ :=
  if x < 0 then -Rat.floor (-x) else Rat.floor x

theorem ratFloor_eq (q : ℚ) : Rat.floor q = ⌊q⌋ := by
  rw [Rat.floor_def, ← Rat.floor_def']

theorem pyRound_nonneg {x : ℚ} (hx : 0 ≤ x) : 0 ≤ pyRound x := by
  have hf : (0 : ℤ) ≤ ⌊x⌋ := Int.floor_nonneg.mpr hx
  unfold pyRound
  rw [ratFloor_eq]
  dsimp only
  split_ifs <;> omega

/-- The enemy attack escalation `int(enemy.attack_power * 1.5)` from
`Game._battle`.  For an integer `a` the float product `a * 1.5` is the
exact value `3 * a / 2` (for all game-sized magnitudes), and `int()`
truncates toward zero, which is `Int.tdiv`. -/
def scale15 (a : ℤ) : ℤ := Int.tdiv (3 * a) 2

/-- Python `str.lower()` (ASCII case folding suffices for the game's
tokens), implemented over the character list so it evaluates by `decide`. -/
def pyLower (s : String) : String := ⟨s.data.map Char.toLower⟩

/-- Python `str.strip()`: remove leading and trailing whitespace. -/
def pyStrip (s : String) : String :=
  ⟨((s.data.dropWhile Char.isWhitespace).reverse.dropWhile Char.isWhitespace).reverse⟩

/-- The token normalisation `value.lower().strip()` performed at the top
of `KonamiManager.push`. -/
def normalizeToken (s : String) : String := pyStrip (pyLower s)

/-! ## Combatant model (`class Farm`) -/

/-- Base combatant class `Farm` (name, max HP, current HP, attack power).
Mirrors `Farm.__init__`, where `max_hp` and `health` start equal. -/
structure Farm where
  name : String
  max_hp : ℤ
  health : ℤ
  attack_power : ℤ
deriving DecidableEq, Repr

/-- `Farm.heal_percent`: `amount = round(max_hp * percent)`;
`health = min(max_hp, health + amount)`; returns `amount`. -/
def Farm.heal_percent (fm : Farm) (percent : ℚ) : ℤ × Farm :=
  let amount := pyRound ((fm.max_hp : ℚ) * percent)
  (amount, { fm with health := min fm.max_hp (fm.health + amount) })

/-- `Farm.damage_percent`: `amount = round(max_hp * percent)`;
`health = max(0, health - amount)`; returns `amount`. -/
def Farm.damage_percent (fm : Farm) (percent : ℚ) : ℤ × Farm :=
  let amount := pyRound ((fm.max_hp : ℚ) * percent)
  (amount, { fm with health := max 0 (fm.health - amount) })

/-- `Farm.heal_flat`: `health = min(max_hp, health + amount)`; returns
the full `amount` argument, not the HP actually gained. -/
def Farm.heal_flat (fm : Farm) (amount : ℤ) : ℤ × Farm :=
  (amount, { fm with health := min fm.max_hp (fm.health + amount) })

/-- `Farm.take_damage`: `health = max(0, health - amount)`; returns `amount`. -/
def Farm.take_damage (fm : Farm) (amount : ℤ) : ℤ × Farm :=
  (amount, { fm with health := max 0 (fm.health - amount) })

/-- The invariant `0 ≤ currentHP ≤ maxHP` of the spec's data model. -/
def hpInvariant (fm : Farm) : Prop :=
  0 ≤ fm.health ∧ fm.health ≤ fm.max_hp

instance (fm : Farm) : Decidable (hpInvariant fm) := by
  unfold hpInvariant; infer_instance

/-! ## Skills and the player (`@dataclass Skill`, `class PlayerFarm`) -/

/-- The `Skill` dataclass.  The `effect` closure is omitted: no claim
invokes a skill effect, and each effect's body lives in its own
`PlayerFarm._skill_*` method. -/
structure Skill where
  name : String
  description : String
  cooldown : ℤ := 0
deriving DecidableEq, Repr

/-- The fixed six-skill catalog built by `PlayerFarm._all_skills`,
in the source's order (names, descriptions and cooldowns verbatim). -/
def SKILL_CATALOG : List Skill :=
  [⟨"Blazing Corn",
    "Deal 30% of enemy current HP + 30% of your attack power and stun the enemy.", 4⟩,
   ⟨"Rain Dance",
    "Restore HP equal to 30% of your max HP + 50% of your attack power.", 5⟩,
   ⟨"Stampede",
    "Strike for 1.3x attack power, reduce enemy next attack, and you take 30% recoil.", 5⟩,
   ⟨"Fortify Fence", "Permanently increase max HP by 25.", 9999⟩,
   ⟨"Sap Burst", "Deal 0.9x attack power and heal for 12% of your max HP.", 3⟩,
   ⟨"Concussive Seed", "Deal 0.5x attack power and stun the enemy to skip its next turn.", 4⟩]

/-- Player state, `PlayerFarm.__init__`.  One field of the Python object
is deliberately *not* part of this structure: `self.rng`, a fresh
`random.Random()` created at line 230 of the source with no seed and
never connected to the `Game`'s injected RNG.  Every draw from it (the
`shuffle` in `add_new_skill`) is therefore passed to the corresponding
Lean function as an explicit argument that is *not* a function of the
game seed. -/
structure PlayerFarm extends Farm where
  skills : List Skill
  coins : ℤ
  gold : ℤ
  tonic_turns : ℤ
  tonic_reduction : ℚ
  skill_cooldowns : List (String × ℤ)
  passives : List (String × ℤ × Bool)
  konami_fragments : ℤ
  konami_fragment_rounds_left : ℤ
  konami_purchase_count : ℤ
  gold_tip_shown : Bool
  merchant_skill_given : Bool
  temp_attack_bonus : ℤ
  irrigation_attack_turns : ℤ
  irrigation_attack_bonus : ℚ
  irrigation_shield : ℤ

/-- `PlayerFarm.__init__`: base stats HP 150 / attack 25, everything
else empty or zero. -/
def PlayerFarm.init (name : String) : PlayerFarm :=
  { name := name, max_hp := 150, health := 150, attack_power := 25,
    skills := [], coins := 0, gold := 0, tonic_turns := 0, tonic_reduction := 0,
    skill_cooldowns := [], passives := [], konami_fragments := 0,
    konami_fragment_rounds_left := 0, konami_purchase_count := 0,
    gold_tip_shown := false, merchant_skill_given := false, temp_attack_bonus := 0,
    irrigation_attack_turns := 0, irrigation_attack_bonus := 0, irrigation_shield := 0 }

/-- `PlayerFarm.take_damage`: the `irrigation_shield` absorbs first
(when positive and the damage is positive), then the remainder goes to
`Farm.take_damage`.  Returns what the superclass call returns: the
post-absorption amount. -/
def PlayerFarm.take_damage (p : PlayerFarm) (amount : ℤ) : ℤ × PlayerFarm :=
  let sa : ℤ × ℤ :=
    if 0 < p.irrigation_shield ∧ 0 < amount then
      let absorbed := min amount p.irrigation_shield
      (p.irrigation_shield - absorbed, amount - absorbed)
    else (p.irrigation_shield, amount)
  let r := Farm.take_damage p.toFarm sa.2
  (r.1, { p with toFarm := r.2, irrigation_shield := sa.1 })

/-- `heal_flat` as inherited by the player from `Farm`. -/
def PlayerFarm.heal_flat (p : PlayerFarm) (amount : ℤ) : ℤ × PlayerFarm :=
  let r := Farm.heal_flat p.toFarm amount
  (r.1, { p with toFarm := r.2 })

/-- `PlayerFarm.add_new_skill`.  The Python method shuffles the full
catalog with `self.rng.shuffle(available)` — `self.rng` being the
player's own unseeded `random.Random()` — and appends the first shuffled
skill whose name the player does not already own.  The shuffle's result
is the explicit `shuffled` argument here; it is a permutation of
`SKILL_CATALOG` determined by the player's private RNG, not by the
game's RNG.  Returns the new skill list and the lines written. -/
def add_new_skill (skills : List Skill) (shuffled : List Skill) :
    List Skill × List String :=
  match shuffled.find? (fun skill => skills.all (fun existing => existing.name != skill.name)) with
  | some skill => (skills ++ [skill], ["âœ¨ New skill acquired: " ++ skill.name ++ "!"])
  | none => (skills, ["No new skill found. All unlocked."])

/-! ## Battle-loop fragments (`Game._battle`, `Game._show_options`) -/

/-- One iteration of the turn-counter/escalation prologue of the battle
loop in `Game._battle`: increment `turn_count`, then (every time the
check is reached, with no once-per-battle guard) multiply the enemy's
attack power by 1.5 if the counter is at or past the threshold —
10 (`long_battle_threshold`) for a non-boss, 15 (`boss_threshold`) for
a boss.  The state is `(turn_count, enemy.attack_power)`. -/
def battle_turn_scale (isBoss : Bool) (st : ℤ × ℤ) : ℤ × ℤ :=
  let turn := st.1 + 1
  let atk1 := if 10 ≤ turn ∧ isBoss = false then scale15 st.2 else st.2
  let atk2 := if 15 ≤ turn ∧ isBoss = true then scale15 atk1 else atk1
  (turn, atk2)

/-- The heal action, branch `choice == "2"` of `Game._show_options`:
`amount = player.heal_flat(50)` followed by the report line built from
the *returned* amount. -/
def heal_action (p : PlayerFarm) : PlayerFarm × String :=
  let r := p.heal_flat 50
  (r.2, p.name ++ " uses a heal and recovers " ++ toString r.1 ++ " HP.")

/-! ## Konami fragments (`Game._play_wave`, `Game._battle`) -/

/-- The fragment-corrosion step at the top of `Game._play_wave`: if the
player holds fragments, decrement `konami_fragment_rounds_left`; when it
reaches 0 (or below), zero the stash and the counter and report. -/
def fragment_decay (p : PlayerFarm) : PlayerFarm × List String :=
  if 0 < p.konami_fragments then
    let r := p.konami_fragment_rounds_left - 1
    if r ≤ 0 then
      ({ p with konami_fragments := 0, konami_fragment_rounds_left := 0 },
       ["Your fragment disappeared."])
    else
      ({ p with konami_fragment_rounds_left := r }, [])
  else (p, [])

/-- `fragment_decay` iterated over `k` successive waves (its state
component only). -/
def fragmentDecayIter (p : PlayerFarm) : ℕ → PlayerFarm
  | 0 => p
  | k + 1 => fragmentDecayIter (fragment_decay p).1 k

/-- The guaranteed fragment drop on boss defeat in `Game._battle`:
if the player holds fewer than 3 fragments, add one and set the decay
counter to 5. -/
def boss_fragment_drop (p : PlayerFarm) : PlayerFarm × List String :=
  if p.konami_fragments < 3 then
    ({ p with konami_fragments := p.konami_fragments + 1,
              konami_fragment_rounds_left := 5 },
     ["Konami Fragment Obtained from the Boss!"])
  else (p, [])

/-! ## Boss passives (`Game._offer_boss_passive`) -/

/-- Python `dict` assignment `passives[name] = v`: replace the entry in
place if the key exists, else append. -/
def setPassive : List (String × ℤ × Bool) → String → ℤ × Bool → List (String × ℤ × Bool)
  | [], name, v => [(name, v)]
  | e :: es, name, v =>
      if e.1 = name then (name, v) :: es else e :: setPassive es name v

/-- The stack count the source reads:
`stacks, _ = self.player.passives.get(name, (0, stackable))`. -/
def stacksOf (p : PlayerFarm) (name : String) : ℤ :=
  ((p.passives.lookup name).getD (0, true)).1

/-- The name of the one stacking passive every boss rewards. -/
def embersFury : String := "Ember\x27s Fury"

/-- `Game._offer_boss_passive`, with the two `self.rng.random()` draws
(the 20% bonus-stack roll and the 10% backlash roll) exposed as the
Booleans `bonusRoll` and `backlashRoll` (true iff the draw was below
the threshold).  `int(max_hp * 0.05)` for the backlash is the exact
rational truncation `pyInt (max_hp * 1/20)`. -/
def offer_boss_passive (p : PlayerFarm) (name desc : String) (stackable : Bool)
    (bonusRoll backlashRoll : Bool) : PlayerFarm × List String :=
  let stacks0 := ((p.passives.lookup name).getD (0, stackable)).1
  if 3 ≤ stacks0 then (p, [])
  else
    let line1 := "\nðŸ† Boss Reward: " ++ name ++ " â€” " ++ desc ++ " Obtained!"
    let stacks1 := min 3 (stacks0 + 1)
    let p1 := { p with passives := setPassive p.passives name (stacks1, stackable) }
    let p2 := if name = embersFury
      then { p1 with attack_power := p1.attack_power + 5 } else p1
    let step2 : PlayerFarm × ℤ × List String :=
      if stackable = true ∧ 0 < stacks0 ∧ stacks1 < 3 ∧ bonusRoll = true then
        let s := min 3 (stacks1 + 1)
        let q1 := { p2 with passives := setPassive p2.passives name (s, stackable) }
        let q2 := if name = embersFury
          then { q1 with attack_power := q1.attack_power + 5 } else q1
        (q2, s, ["A surge amplifies the reward! An extra stack is granted."])
      else (p2, stacks1, [])
    let step3 : PlayerFarm × List String :=
      if backlashRoll = true then
        let lost := max 1 (pyInt ((step2.1.max_hp : ℚ) * (1/20)))
        ((step2.1.take_damage lost).2,
         ["The passive leaves a bitter aftertaste. You lose " ++ toString lost ++ " HP."])
      else (step2.1, [])
    (step3.1,
     [line1] ++ step2.2.2 ++ step3.2 ++
       ["Passive applied. Current stacks: " ++ toString step2.2.1 ++ "."])

/-- A sequence of boss kills, each applying `Game._offer_boss_passive`
with its pair of RNG draws. -/
def offerFold (p : PlayerFarm) (name desc : String) (stackable : Bool)
    (rolls : List (Bool × Bool)) : PlayerFarm :=
  rolls.foldl (fun q r => (offer_boss_passive q name desc stackable r.1 r.2).1) p

/-! ## Shop (`Game._open_shop`, story-mode Gold Pouch branch) -/

/-- The story-mode `choice == "3"` branch of `Game._open_shop`: the
Gold Pouch converts 10 coins into 1 gold; with fewer than 10 coins only
the message `Not enough coins.` is written and the player is untouched. -/
def gold_pouch_story (p : PlayerFarm) : PlayerFarm × List String :=
  if 10 ≤ p.coins then
    let q := { p with coins := p.coins - 10, gold := p.gold + 1 }
    (q, ["You purchase a Gold Pouch and gain 1 gold.",
         "Coins: " ++ toString q.coins ++ " | Gold: " ++ toString q.gold])
  else (p, ["Not enough coins."])

/-! ## Secret-code tracker (`class KonamiManager`) -/

/-- The fixed 10-token target sequence `KONAMI_SEQUENCE`. -/
def KONAMI_SEQUENCE : List String :=
  ["up", "up", "down", "down", "left", "right", "left", "right", "b", "a"]

/-- The four hint strings of `KonamiManager.__init__` (verbatim,
including the source file's mangled UTF-8 in the last one). -/
def konamiHints : List String :=
  ["A strange breeze whistles... like a whisper of old codes.",
   "You feel your fingers itching for a rhythm you\x27ve never learned.",
   "The soil pulses with hidden power. What if you... remembered something forgotten?",
   "A distant memory nudges your thoughtsâ€”up, up, down...?"]

/-- `KonamiManager` state (the `rng` member is the game's RNG; its draws
appear as explicit arguments of `push`). -/
structure KonamiManager where
  sequence : List String
  buffer : List String
  max_uses : ℤ
  uses : ℤ
  locked : Bool
deriving DecidableEq, Repr

/-- `KonamiManager(sequence=KONAMI_SEQUENCE, max_uses)` with empty
buffer, zero uses, unlocked. -/
def konamiInit (maxUses : ℤ) : KonamiManager :=
  { sequence := KONAMI_SEQUENCE, buffer := [], max_uses := maxUses,
    uses := 0, locked := false }

/-- What `KonamiManager.push` does or raises. -/
inductive PushStep where
  | ret (b : Bool)
  | raised (hint : String)
deriving DecidableEq, Repr

/-- The rolling buffer after appending the normalised token: append,
then `pop(0)` when the buffer exceeds the sequence length. -/
def pushBuf (st : KonamiManager) (value : String) : List String :=
  let b0 := st.buffer ++ [normalizeToken value]
  if st.sequence.length < b0.length then b0.drop 1 else b0

/-- `KonamiManager.push`.  `hintRoll` is true iff this call's
`self.rng.random() < 0.15` draw succeeded, and `hintIdx` selects the
hint `self.rng.choice(self.hints)` would pick.  The Python method
*raises* `KonamiHint` on the hint path (after having already mutated the
buffer), which is embedded as the `PushStep.raised` outcome paired with
the mutated state. -/
def KonamiManager.push (st : KonamiManager) (value : String) (hintRoll : Bool)
    (hintIdx : ℕ) : PushStep × KonamiManager :=
  if normalizeToken value = "" then (PushStep.ret false, st)
  else if pushBuf st value = st.sequence ∧ st.locked = false ∧
      (st.max_uses ≤ 0 ∨ st.uses < st.max_uses) then
    (PushStep.ret true,
      { st with buffer := [], uses := st.uses + 1,
                locked := if 0 < st.max_uses ∧ st.max_uses ≤ st.uses + 1
                          then true else st.locked })
  else if pushBuf st value ≠ st.sequence.take (pushBuf st value).length ∧
      hintRoll = true then
    (PushStep.raised (konamiHints.getD (hintIdx % konamiHints.length) ""),
     { st with buffer := pushBuf st value })
  else
    (PushStep.ret false, { st with buffer := pushBuf st value })

/-- One scripted `push` call: the token and this call's two RNG draws. -/
structure PushInput where
  value : String
  hintRoll : Bool
  hintIdx : ℕ

/-- Outcome/state trace of a sequence of `push` calls. -/
def pushTrace (st : KonamiManager) : List PushInput → List (PushStep × KonamiManager)
  | [] => []
  | i :: is =>
      let r := st.push i.value i.hintRoll i.hintIdx
      r :: pushTrace r.2 is

/-- The state a `max_uses = 1` tracker is left in by a successful full
submission: cleared buffer, one use consumed, locked. -/
def konamiLockedState : KonamiManager :=
  { sequence := KONAMI_SEQUENCE, buffer := [], max_uses := 1,
    uses := 1, locked := true }

/-- The exact 10-token target sequence as a push script, with arbitrary
RNG draws `f k` attached to the `k`-th call. -/
def konamiScriptInputs (f : ℕ → Bool × ℕ) : List PushInput :=
  (List.range KONAMI_SEQUENCE.length).map
    (fun k => ⟨KONAMI_SEQUENCE.getD k "", (f k).1, (f k).2⟩)


/-! ## Claim C3: HP mutations preserve `0 ≤ currentHP ≤ maxHP` -/

/-- C3: for every combatant with `0 ≤ currentHP ≤ maxHP` and every
non-negative argument, `take_damage`, `heal_flat`, `heal_percent` and
`damage_percent` (and the player's shield-aware `take_damage`) leave
`0 ≤ currentHP ≤ maxHP` intact: damage is floored at 0, healing is
capped at `maxHP`. -/
theorem hp_mutations_preserve_bounds (fm : Farm) (p : PlayerFarm) (n : ℤ) (pc : ℚ)
    (hf : hpInvariant fm) (hpl : hpInvariant p.toFarm) (hn : 0 ≤ n) (hpc : 0 ≤ pc) :
    hpInvariant (fm.take_damage n).2 ∧ hpInvariant (fm.heal_flat n).2 ∧
    hpInvariant (fm.heal_percent pc).2 ∧ hpInvariant (fm.damage_percent pc).2 ∧
    hpInvariant (p.take_damage n).2.toFarm := by
  obtain ⟨h1, h2⟩ := hf
  obtain ⟨h3, h4⟩ := hpl
  have hamt : 0 ≤ pyRound ((fm.max_hp : ℚ) * pc) :=
    pyRound_nonneg (mul_nonneg (by exact_mod_cast le_trans h1 h2) hpc)
  refine ⟨?_, ?_, ?_, ?_, ?_⟩
  · unfold Farm.take_damage hpInvariant; dsimp; omega
  · unfold Farm.heal_flat hpInvariant; dsimp; omega
  · unfold Farm.heal_percent hpInvariant; dsimp; omega
  · unfold Farm.damage_percent hpInvariant; dsimp; omega
  · unfold PlayerFarm.take_damage Farm.take_damage hpInvariant
    dsimp
    split_ifs <;> dsimp <;> omega

/-- Witness for C3 at a concrete combatant and player. -/
theorem hp_mutations_preserve_bounds_witness :
    hpInvariant (Farm.mk "f" 150 40 25) ∧ hpInvariant (PlayerFarm.init "F").toFarm ∧
    (0 : ℤ) ≤ 60 ∧ (0 : ℚ) ≤ 1/2 ∧
    (hpInvariant ((Farm.mk "f" 150 40 25).take_damage 60).2 ∧
     hpInvariant ((Farm.mk "f" 150 40 25).heal_flat 60).2 ∧
     hpInvariant ((Farm.mk "f" 150 40 25).heal_percent (1/2)).2 ∧
     hpInvariant ((Farm.mk "f" 150 40 25).damage_percent (1/2)).2 ∧
     hpInvariant ((PlayerFarm.init "F").take_damage 60).2.toFarm) :=
  ⟨by decide, by decide, by decide, by norm_num,
   hp_mutations_preserve_bounds (Farm.mk "f" 150 40 25) (PlayerFarm.init "F") 60 (1/2)
     (by decide) (by decide) (by decide) (by norm_num)⟩

/-! ## Claim C4: the shield absorbs damage before any HP loss -/

/-- C4: with shield `S > 0` and incoming damage `D ≥ 0`, after
`PlayerFarm.take_damage D` the shield equals `max 0 (S - D)` and the HP
loss equals `min currentHP (max 0 (D - S))`. -/
theorem shield_absorbs_before_hp (p : PlayerFarm) (D : ℤ)
    (hS : 0 < p.irrigation_shield) (hD : 0 ≤ D) (hH : 0 ≤ p.health) :
    (p.take_damage D).2.irrigation_shield = max 0 (p.irrigation_shield - D) ∧
    p.health - (p.take_damage D).2.health
      = min p.health (max 0 (D - p.irrigation_shield)) := by
  unfold PlayerFarm.take_damage Farm.take_damage
  dsimp
  split_ifs <;> dsimp <;> constructor <;> omega

/-- Witness for C4: shield 20, incoming damage 30 on a fresh player. -/
theorem shield_absorbs_before_hp_witness :
    (0 : ℤ) < ({ PlayerFarm.init "F" with irrigation_shield := 20 }).irrigation_shield ∧
    (0 : ℤ) ≤ 30 ∧ (0 : ℤ) ≤ ({ PlayerFarm.init "F" with irrigation_shield := 20 }).health ∧
    (({ PlayerFarm.init "F" with irrigation_shield := 20 }).take_damage 30).2.irrigation_shield
      = max 0 (({ PlayerFarm.init "F" with irrigation_shield := 20 }).irrigation_shield - 30) ∧
    ({ PlayerFarm.init "F" with irrigation_shield := 20 }).health
        - (({ PlayerFarm.init "F" with irrigation_shield := 20 }).take_damage 30).2.health
      = min ({ PlayerFarm.init "F" with irrigation_shield := 20 }).health
          (max 0 (30 - ({ PlayerFarm.init "F" with irrigation_shield := 20 }).irrigation_shield)) :=
  ⟨by decide, by decide, by decide,
   (shield_absorbs_before_hp { PlayerFarm.init "F" with irrigation_shield := 20 } 30
     (by decide) (by decide) (by decide)).1,
   (shield_absorbs_before_hp { PlayerFarm.init "F" with irrigation_shield := 20 } 30
     (by decide) (by decide) (by decide)).2⟩

/-! ## Claim C8: Gold Pouch at the cost boundary -/

/-- C8: with exactly 10 coins the story-mode Gold Pouch purchase
succeeds, ending with 0 coins and gold increased by 1; with 9 coins the
branch only writes `Not enough coins.` and the player state is returned
completely unchanged. -/
theorem gold_pouch_boundary (p q : PlayerFarm) (hp10 : p.coins = 10) (hq9 : q.coins = 9) :
    (gold_pouch_story p).1.coins = 0 ∧
    (gold_pouch_story p).1.gold = p.gold + 1 ∧
    gold_pouch_story q = (q, ["Not enough coins."]) := by
  unfold gold_pouch_story
  refine ⟨?_, ?_, ?_⟩
  · rw [if_pos (by omega)]; dsimp; omega
  · rw [if_pos (by omega)]
  · rw [if_neg (by omega)]

/-- Witness for C8 at players with exactly 10 and exactly 9 coins. -/
theorem gold_pouch_boundary_witness :
    ({ PlayerFarm.init "F" with coins := 10 } : PlayerFarm).coins = 10 ∧
    ({ PlayerFarm.init "F" with coins := 9 } : PlayerFarm).coins = 9 ∧
    ((gold_pouch_story { PlayerFarm.init "F" with coins := 10 }).1.coins = 0 ∧
     (gold_pouch_story { PlayerFarm.init "F" with coins := 10 }).1.gold
       = ({ PlayerFarm.init "F" with coins := 10 } : PlayerFarm).gold + 1 ∧
     gold_pouch_story { PlayerFarm.init "F" with coins := 9 }
       = ({ PlayerFarm.init "F" with coins := 9 }, ["Not enough coins."])) :=
  ⟨by decide, by decide,
   gold_pouch_boundary { PlayerFarm.init "F" with coins := 10 }
     { PlayerFarm.init "F" with coins := 9 } (by decide) (by decide)⟩

/-! ## Claim C10: `heal_flat` reports its argument, not the HP gained -/

/-- C10: `heal_flat n` returns `n` itself even when the heal is capped
at `maxHP` — the actual gain is `min n (maxHP - currentHP)` — and the
in-battle heal action therefore reports recovering 50 HP even at full
health (where the true gain is 0). -/
theorem heal_flat_reports_full_amount (fm : Farm) (n : ℤ) (p : PlayerFarm)
    (hn : 0 ≤ n) (hfm : fm.health ≤ fm.max_hp) (hfull : p.health = p.max_hp) :
    (fm.heal_flat n).1 = n ∧
    (fm.heal_flat n).2.health - fm.health = min n (fm.max_hp - fm.health) ∧
    (heal_action p).1.health = p.health ∧
    (heal_action p).2 = p.name ++ " uses a heal and recovers 50 HP." := by
  refine ⟨rfl, ?_, ?_, ?_⟩
  · unfold Farm.heal_flat; dsimp; omega
  · unfold heal_action PlayerFarm.heal_flat Farm.heal_flat; dsimp; omega
  · unfold heal_action PlayerFarm.heal_flat Farm.heal_flat
    dsimp
    rw [String.append_assoc, String.append_assoc]
    congr 1

/-- Witness for C10: a combatant 10 HP below max healing 50, and a
full-health player using the heal action. -/
theorem heal_flat_reports_full_amount_witness :
    (0 : ℤ) ≤ 50 ∧ (Farm.mk "f" 150 140 25).health ≤ (Farm.mk "f" 150 140 25).max_hp ∧
    (PlayerFarm.init "F").health = (PlayerFarm.init "F").max_hp ∧
    (((Farm.mk "f" 150 140 25).heal_flat 50).1 = 50 ∧
     ((Farm.mk "f" 150 140 25).heal_flat 50).2.health - (Farm.mk "f" 150 140 25).health
       = min 50 ((Farm.mk "f" 150 140 25).max_hp - (Farm.mk "f" 150 140 25).health) ∧
     (heal_action (PlayerFarm.init "F")).1.health = (PlayerFarm.init "F").health ∧
     (heal_action (PlayerFarm.init "F")).2
       = (PlayerFarm.init "F").name ++ " uses a heal and recovers 50 HP.") :=
  ⟨by decide, by decide, by decide,
   heal_flat_reports_full_amount (Farm.mk "f" 150 140 25) 50 (PlayerFarm.init "F")
     (by decide) (by decide) (by decide)⟩

/-! ## Claim C6: fragment decay and boss replenishment -/

/-- Helper: while the decay counter stays positive, each iterated wave
transition only decrements it, leaving the fragment count untouched. -/
theorem fragmentDecayIter_of_lt (k : ℕ) :
    ∀ p : PlayerFarm, 0 < p.konami_fragments →
      (k : ℤ) < p.konami_fragment_rounds_left →
      fragmentDecayIter p k
        = { p with konami_fragment_rounds_left := p.konami_fragment_rounds_left - k } := by
  induction k with
  | zero => intro p h1 h2; simp [fragmentDecayIter]
  | succ m ih =>
      intro p h1 h2
      have hstep : (fragment_decay p).1
          = { p with konami_fragment_rounds_left := p.konami_fragment_rounds_left - 1 } := by
        unfold fragment_decay
        rw [if_pos h1, if_neg (by push_cast at h2; omega)]
      show fragmentDecayIter (fragment_decay p).1 m = _
      rw [hstep, ih _ (by exact h1) (by dsimp; push_cast at h2 ⊢; omega)]
      dsimp
      congr 1
      push_cast
      ring

/-- Helper: peeling the *last* wave transition off an iterated decay. -/
theorem fragmentDecayIter_succ_last (k : ℕ) :
    ∀ p : PlayerFarm, fragmentDecayIter p (k + 1)
      = (fragment_decay (fragmentDecayIter p k)).1 := by
  induction k with
  | zero => intro p; rfl
  | succ m ih =>
      intro p
      show fragmentDecayIter (fragment_decay p).1 (m + 1) = _
      rw [ih (fragment_decay p).1]
      rfl

/-- Player fixture for the C6 witness: just received a fragment. -/
def c6Player : PlayerFarm :=
  { PlayerFarm.init "F" with konami_fragments := 1, konami_fragment_rounds_left := 5 }

/-- C6: from a replenished state (≥1 fragment, decay counter 5), each of
the first four wave transitions leaves the stash intact, the fifth
resets it to 0; every wave transition with fragments held decrements the
counter by exactly 1; and a boss kill with fewer than 3 fragments adds a
fragment and sets the counter back to 5. -/
theorem fragment_decay_and_reset (p q b : PlayerFarm) (k : ℕ)
    (hp1 : 0 < p.konami_fragments) (hp2 : p.konami_fragment_rounds_left = 5)
    (hk : k ≤ 4)
    (hq1 : 0 < q.konami_fragments) (hq2 : 1 ≤ q.konami_fragment_rounds_left)
    (hb : b.konami_fragments < 3) :
    (fragment_decay q).1.konami_fragment_rounds_left
        = q.konami_fragment_rounds_left - 1 ∧
    (fragmentDecayIter p k).konami_fragments = p.konami_fragments ∧
    (fragmentDecayIter p 5).konami_fragments = 0 ∧
    (boss_fragment_drop b).1.konami_fragment_rounds_left = 5 ∧
    (boss_fragment_drop b).1.konami_fragments = b.konami_fragments + 1 := by
  refine ⟨?_, ?_, ?_, ?_, ?_⟩
  · unfold fragment_decay
    rw [if_pos hq1]
    dsimp only
    split_ifs <;> dsimp <;> omega
  · rw [fragmentDecayIter_of_lt k p hp1 (by rw [hp2]; push_cast; omega)]
  · have h4 : fragmentDecayIter p 4
        = { p with konami_fragment_rounds_left := p.konami_fragment_rounds_left - 4 } :=
      fragmentDecayIter_of_lt 4 p hp1 (by rw [hp2]; norm_num)
    rw [fragmentDecayIter_succ_last 4 p, h4]
    unfold fragment_decay
    rw [if_pos (by dsimp; exact hp1), if_pos (by dsimp; rw [hp2]; norm_num)]
  · unfold boss_fragment_drop
    rw [if_pos hb]
  · unfold boss_fragment_drop
    rw [if_pos hb]

/-- Witness for C6 at a player who just received a fragment. -/
theorem fragment_decay_and_reset_witness :
    (0 : ℤ) < c6Player.konami_fragments ∧
    c6Player.konami_fragment_rounds_left = 5 ∧
    (3 : ℕ) ≤ 4 ∧
    (0 : ℤ) < c6Player.konami_fragments ∧
    (1 : ℤ) ≤ c6Player.konami_fragment_rounds_left ∧
    (PlayerFarm.init "F").konami_fragments < 3 ∧
    ((fragment_decay c6Player).1.konami_fragment_rounds_left
        = c6Player.konami_fragment_rounds_left - 1 ∧
     (fragmentDecayIter c6Player 3).konami_fragments = c6Player.konami_fragments ∧
     (fragmentDecayIter c6Player 5).konami_fragments = 0 ∧
     (boss_fragment_drop (PlayerFarm.init "F")).1.konami_fragment_rounds_left = 5 ∧
     (boss_fragment_drop (PlayerFarm.init "F")).1.konami_fragments
        = (PlayerFarm.init "F").konami_fragments + 1) :=
  ⟨by decide, by decide, by decide, by decide, by decide, by decide,
   fragment_decay_and_reset c6Player c6Player (PlayerFarm.init "F") 3
     (by decide) (by decide) (by decide) (by decide) (by decide) (by decide)⟩

/-! ## Claim C2: the turn-threshold attack escalation -/

/-- C2 counterexample: for a regular enemy with attack power 20, the
×1.5 escalation fires on turn 10 (attack 30) *and again* on turn 11
(attack 45), so it is not applied at most once per battle as claimed. -/
theorem battle_scale_not_once_counterexample :
    (battle_turn_scale false)^[10] (0, 20) = (10, 30) ∧
    (battle_turn_scale false)^[11] (0, 20) = (11, 45) ∧
    scale15 20 = 30 ∧ ((45 : ℤ) ≠ 30) := by decide

/-- C2 amended: the escalation check has no once-per-battle guard, so
from the threshold turn onward (10 for a regular enemy, 15 for a boss)
the enemy's attack power is multiplied by 1.5 (truncated) *every* turn:
after `n` turns it equals `scale15` iterated `n - (threshold - 1)`
times on the starting attack power. -/
theorem battle_scale_compounds_each_turn (isBoss : Bool) (a0 : ℤ) (n : ℕ) :
    (battle_turn_scale isBoss)^[n] (0, a0)
      = ((n : ℤ), scale15^[n - (if isBoss = true then 14 else 9)] a0) := by
  induction n with
  | zero => simp
  | succ m ih =>
      rw [Function.iterate_succ_apply', ih]
      unfold battle_turn_scale
      cases isBoss with
      | false =>
          dsimp only
          simp only [Bool.false_eq_true, and_false, if_false, eq_self_iff_true, and_true, if_true]
          by_cases h : 9 ≤ m
          · rw [if_pos (show (10 : ℤ) ≤ (m : ℤ) + 1 by push_cast; omega)]
            rw [Nat.succ_sub h, Function.iterate_succ_apply']
            simp only [Prod.mk.injEq]
            exact ⟨by push_cast; ring, trivial⟩
          · rw [if_neg (show ¬ (10 : ℤ) ≤ (m : ℤ) + 1 by push_cast; omega)]
            rw [Nat.sub_eq_zero_of_le (by omega), Nat.sub_eq_zero_of_le (by omega)]
            simp only [Prod.mk.injEq]
            exact ⟨by push_cast; ring, trivial⟩
      | true =>
          dsimp only
          simp only [Bool.true_eq_false, and_false, if_false, eq_self_iff_true, and_true, if_true]
          by_cases h : 14 ≤ m
          · rw [if_pos (show (15 : ℤ) ≤ (m : ℤ) + 1 by push_cast; omega)]
            rw [Nat.succ_sub h, Function.iterate_succ_apply']
            simp only [Prod.mk.injEq]
            exact ⟨by push_cast; ring, trivial⟩
          · rw [if_neg (show ¬ (15 : ℤ) ≤ (m : ℤ) + 1 by push_cast; omega)]
            rw [Nat.sub_eq_zero_of_le (by omega), Nat.sub_eq_zero_of_le (by omega)]
            simp only [Prod.mk.injEq]
            exact ⟨by push_cast; ring, trivial⟩

/-! ## Claim C1: which RNG instance drives skill acquisition -/

/-- C1: the skill granted by `PlayerFarm.add_new_skill` (and the output
line announcing it) is decided by the shuffle of the player's *private*
unseeded `random.Random()` from `PlayerFarm.__init__`, not by the game's
injected seedable RNG — the game RNG is not even an input of the
computation.  Two shuffle outcomes, both permutations of the catalog
and both reachable since that RNG is unseeded, give different acquired
skills and different output lines under an identical game seed and
identical scripted prompts. -/
theorem add_new_skill_uses_player_private_rng :
    (SKILL_CATALOG.rotate 1).Perm SKILL_CATALOG ∧
    (add_new_skill [] SKILL_CATALOG).1 ≠ (add_new_skill [] (SKILL_CATALOG.rotate 1)).1 ∧
    (add_new_skill [] SKILL_CATALOG).2 ≠ (add_new_skill [] (SKILL_CATALOG.rotate 1)).2 :=
  ⟨List.rotate_perm _ _, by decide, by decide⟩

/-! ## Claim C7: passive stacks are capped at 3; Ember's Fury pays +5 per stack -/

/-- Helper: looking up the key just written by `setPassive` yields the
written value (Python dict read-after-write). -/
theorem lookup_setPassive (l : List (String × ℤ × Bool)) (name : String) (v : ℤ × Bool) :
    (setPassive l name v).lookup name = some v := by
  induction l with
  | nil => simp [setPassive, List.lookup]
  | cons e es ih =>
      obtain ⟨k, v'⟩ := e
      dsimp [setPassive]
      by_cases h : k = name
      · subst h; simp [List.lookup]
      · have hbeq : (name == k) = false := beq_eq_false_iff_ne.mpr (Ne.symm h)
        rw [if_neg h]
        simp [List.lookup, hbeq, ih]

/-- Helper: one `_offer_boss_passive` call keeps the named passive's
stack count at 3 or below. -/
theorem offer_stack_cap (p : PlayerFarm) (name desc : String) (stackable b1 b2 : Bool)
    (h : stacksOf p name ≤ 3) :
    stacksOf (offer_boss_passive p name desc stackable b1 b2).1 name ≤ 3 := by
  unfold offer_boss_passive
  cases hl : p.passives.lookup name with
  | none =>
      dsimp only
      split_ifs <;>
        first
          | exact h
          | (simp [stacksOf, hl, lookup_setPassive, PlayerFarm.take_damage,
               Farm.take_damage] <;> omega)
  | some sv =>
      dsimp only
      split_ifs <;>
        first
          | exact h
          | (simp [stacksOf, hl, lookup_setPassive, PlayerFarm.take_damage,
               Farm.take_damage] <;> omega)

/-- Helper: for the passive named `Ember's Fury`, one
`_offer_boss_passive` call raises attack power by exactly 5 per stack
actually granted. -/
theorem offer_ember_attack (q : PlayerFarm) (desc : String) (stackable b1 b2 : Bool) :
    (offer_boss_passive q embersFury desc stackable b1 b2).1.attack_power
      = q.attack_power
        + 5 * (stacksOf (offer_boss_passive q embersFury desc stackable b1 b2).1 embersFury
               - stacksOf q embersFury) := by
  unfold offer_boss_passive
  cases hl : q.passives.lookup embersFury with
  | none =>
      dsimp only
      simp only [Option.getD_none]
      split_ifs <;>
        simp [stacksOf, hl, lookup_setPassive, PlayerFarm.take_damage, Farm.take_damage] <;>
        omega
  | some sv =>
      obtain ⟨s, sb⟩ := sv
      dsimp only
      simp only [Option.getD_some]
      split_ifs <;>
        simp [stacksOf, hl, lookup_setPassive, PlayerFarm.take_damage, Farm.take_damage] <;>
        omega

/-- C7: over any sequence of boss kills (each with its 20% bonus-stack
and 10% backlash rolls), a named passive's stack count never exceeds 3;
and each `Ember's Fury` call adds exactly +5 attack per stack actually
granted (so a kill that grants no stack adds nothing). -/
theorem boss_passive_stack_cap (p : PlayerFarm) (name desc : String) (stackable : Bool)
    (rolls : List (Bool × Bool)) (q : PlayerFarm) (desc2 : String) (stackable2 : Bool)
    (b1 b2 : Bool) (h : stacksOf p name ≤ 3) :
    stacksOf (offerFold p name desc stackable rolls) name ≤ 3 ∧
    (offer_boss_passive q embersFury desc2 stackable2 b1 b2).1.attack_power
      = q.attack_power
        + 5 * (stacksOf (offer_boss_passive q embersFury desc2 stackable2 b1 b2).1 embersFury
               - stacksOf q embersFury) := by
  constructor
  · induction rolls generalizing p with
    | nil => exact h
    | cons r rs ih =>
        unfold offerFold
        rw [List.foldl_cons]
        exact ih _ (offer_stack_cap p name desc stackable r.1 r.2 h)
  · exact offer_ember_attack q desc2 stackable2 b1 b2

/-- Witness for C7: two boss kills of the Ember's Fury boss, the first
with the bonus stack granted, starting from a fresh player. -/
theorem boss_passive_stack_cap_witness :
    stacksOf (PlayerFarm.init "F") embersFury ≤ 3 ∧
    (stacksOf (offerFold (PlayerFarm.init "F") embersFury
        "Gain +5 attack per stack (stackable up to 3 times)." true
        [(true, false), (true, true)]) embersFury ≤ 3 ∧
     (offer_boss_passive (PlayerFarm.init "F") embersFury
        "Gain +5 attack per stack (stackable up to 3 times)." true true false).1.attack_power
       = (PlayerFarm.init "F").attack_power
         + 5 * (stacksOf (offer_boss_passive (PlayerFarm.init "F") embersFury
             "Gain +5 attack per stack (stackable up to 3 times)." true true false).1 embersFury
            - stacksOf (PlayerFarm.init "F") embersFury)) :=
  ⟨by decide,
   boss_passive_stack_cap (PlayerFarm.init "F") embersFury
     "Gain +5 attack per stack (stackable up to 3 times)." true
     [(true, false), (true, true)] (PlayerFarm.init "F")
     "Gain +5 attack per stack (stackable up to 3 times)." true true false (by decide)⟩

/-! ## Claims C5 and C9: the secret-code tracker -/

/-- Helper: when the rolled buffer is a prefix of the target sequence,
the outcome of `push` does not depend on the hint roll (the hint branch
is unreachable). -/
theorem push_roll_irrelevant (st : KonamiManager) (value : String) (roll : Bool) (idx : ℕ)
    (h : pushBuf st value = st.sequence.take (pushBuf st value).length) :
    st.push value roll idx = st.push value false 0 := by
  unfold KonamiManager.push
  by_cases h1 : normalizeToken value = ""
  · rw [if_pos h1, if_pos h1]
  · rw [if_neg h1, if_neg h1]
    by_cases h2 : pushBuf st value = st.sequence ∧ st.locked = false ∧
        (st.max_uses ≤ 0 ∨ st.uses < st.max_uses)
    · rw [if_pos h2, if_pos h2]
    · rw [if_neg h2, if_neg h2]
      rw [if_neg (fun hc => hc.1 h), if_neg (fun hc => hc.1 h)]

/-- Mid-submission tracker states: `k` correct tokens buffered on a
`max_uses = 1` tracker. -/
def kst (k : ℕ) : KonamiManager :=
  { sequence := KONAMI_SEQUENCE, buffer := KONAMI_SEQUENCE.take k, max_uses := 1,
    uses := 0, locked := false }

/-- Helper: the full 10-token submission's trace, with arbitrary RNG
draws attached to every call: nine failures then the one success, which
locks the tracker. -/
theorem konami_trace_eq (f : ℕ → Bool × ℕ) :
    pushTrace (konamiInit 1) (konamiScriptInputs f)
      = [(PushStep.ret false, kst 1), (PushStep.ret false, kst 2),
         (PushStep.ret false, kst 3), (PushStep.ret false, kst 4),
         (PushStep.ret false, kst 5), (PushStep.ret false, kst 6),
         (PushStep.ret false, kst 7), (PushStep.ret false, kst 8),
         (PushStep.ret false, kst 9), (PushStep.ret true, konamiLockedState)] := by
  have hin : konamiScriptInputs f =
      [⟨"up", (f 0).1, (f 0).2⟩, ⟨"up", (f 1).1, (f 1).2⟩, ⟨"down", (f 2).1, (f 2).2⟩,
       ⟨"down", (f 3).1, (f 3).2⟩, ⟨"left", (f 4).1, (f 4).2⟩, ⟨"right", (f 5).1, (f 5).2⟩,
       ⟨"left", (f 6).1, (f 6).2⟩, ⟨"right", (f 7).1, (f 7).2⟩, ⟨"b", (f 8).1, (f 8).2⟩,
       ⟨"a", (f 9).1, (f 9).2⟩] := rfl
  have e0 : ∀ r i, (konamiInit 1).push "up" r i = (PushStep.ret false, kst 1) := fun r i => by
    rw [push_roll_irrelevant _ _ _ _ (by decide)]; decide
  have e1 : ∀ r i, (kst 1).push "up" r i = (PushStep.ret false, kst 2) := fun r i => by
    rw [push_roll_irrelevant _ _ _ _ (by decide)]; decide
  have e2 : ∀ r i, (kst 2).push "down" r i = (PushStep.ret false, kst 3) := fun r i => by
    rw [push_roll_irrelevant _ _ _ _ (by decide)]; decide
  have e3 : ∀ r i, (kst 3).push "down" r i = (PushStep.ret false, kst 4) := fun r i => by
    rw [push_roll_irrelevant _ _ _ _ (by decide)]; decide
  have e4 : ∀ r i, (kst 4).push "left" r i = (PushStep.ret false, kst 5) := fun r i => by
    rw [push_roll_irrelevant _ _ _ _ (by decide)]; decide
  have e5 : ∀ r i, (kst 5).push "right" r i = (PushStep.ret false, kst 6) := fun r i => by
    rw [push_roll_irrelevant _ _ _ _ (by decide)]; decide
  have e6 : ∀ r i, (kst 6).push "left" r i = (PushStep.ret false, kst 7) := fun r i => by
    rw [push_roll_irrelevant _ _ _ _ (by decide)]; decide
  have e7 : ∀ r i, (kst 7).push "right" r i = (PushStep.ret false, kst 8) := fun r i => by
    rw [push_roll_irrelevant _ _ _ _ (by decide)]; decide
  have e8 : ∀ r i, (kst 8).push "b" r i = (PushStep.ret false, kst 9) := fun r i => by
    rw [push_roll_irrelevant _ _ _ _ (by decide)]; decide
  have e9 : ∀ r i, (kst 9).push "a" r i = (PushStep.ret true, konamiLockedState) :=
    fun r i => by
    rw [push_roll_irrelevant _ _ _ _ (by decide)]; decide
  rw [hin]
  simp only [pushTrace, e0, e1, e2, e3, e4, e5, e6, e7, e8, e9]

/-- Helper: a locked tracker never succeeds again and never changes its
use counter or its locked flag, whatever is pushed and however the RNG
rolls. -/
theorem push_locked (st : KonamiManager) (h : st.locked = true) (v : String)
    (roll : Bool) (idx : ℕ) :
    (st.push v roll idx).1 ≠ PushStep.ret true ∧
    (st.push v roll idx).2.locked = true ∧ (st.push v roll idx).2.uses = st.uses := by
  unfold KonamiManager.push
  by_cases h1 : normalizeToken v = ""
  · rw [if_pos h1]
    exact ⟨by simp, h, rfl⟩
  · rw [if_neg h1,
      if_neg (fun hc => by rw [h] at hc; simpa using hc.2.1)]
    split_ifs <;> exact ⟨by simp, h, rfl⟩

/-- Helper: `push_locked` over a whole trace. -/
theorem pushTrace_locked (l : List PushInput) :
    ∀ st : KonamiManager, st.locked = true →
      ∀ os ∈ pushTrace st l,
        os.1 ≠ PushStep.ret true ∧ os.2.locked = true ∧ os.2.uses = st.uses := by
  induction l with
  | nil => intro st _ os hos; simp [pushTrace] at hos
  | cons i is ih =>
      intro st h os hos
      have hp := push_locked st h i.value i.hintRoll i.hintIdx
      simp only [pushTrace, List.mem_cons] at hos
      rcases hos with rfl | hos
      · exact hp
      · have hr := ih _ hp.2.1 os hos
        exact ⟨hr.1, hr.2.1, hr.2.2.trans hp.2.2⟩

/-- C5: on a `max_uses = 1` tracker, pushing the exact 10-token target
sequence (whatever the per-call RNG draws) returns success exactly once
— nine `False` returns then one `True` — leaving the tracker locked;
every subsequent push, of any tokens whatsoever (in particular any
resubmission of the exact sequence), never returns success again; and
the use counter never exceeds `max_uses` at any point. -/
theorem konami_push_single_success (f : ℕ → Bool × ℕ) (rest : List PushInput) :
    (pushTrace (konamiInit 1) (konamiScriptInputs f)).map Prod.fst
        = List.replicate 9 (PushStep.ret false) ++ [PushStep.ret true] ∧
    (pushTrace (konamiInit 1) (konamiScriptInputs f)).getLast?
        = some (PushStep.ret true, konamiLockedState) ∧
    (∀ os ∈ pushTrace (konamiInit 1) (konamiScriptInputs f),
        os.2.uses ≤ (konamiInit 1).max_uses) ∧
    (∀ os ∈ pushTrace konamiLockedState rest,
        os.1 ≠ PushStep.ret true ∧ os.2.uses ≤ (konamiInit 1).max_uses) := by
  refine ⟨?_, ?_, ?_, ?_⟩
  · rw [konami_trace_eq f]; decide
  · rw [konami_trace_eq f]; decide
  · rw [konami_trace_eq f]
    intro os hos
    fin_cases hos <;> decide
  · intro os hos
    have h := pushTrace_locked rest konamiLockedState (by decide) os hos
    exact ⟨h.1, by rw [h.2.2]; decide⟩

/-- C9 counterexample: `push` *does* raise.  On a fresh unlimited
tracker (as built by `Game.__init__`), pushing the mismatching token
`down` when the 15% hint roll succeeds produces the raised `KonamiHint`
outcome carrying the first hint string — not a returned boolean. -/
theorem push_raises_hint_counterexample :
    ((konamiInit 0).push "down" true 0).1
        = PushStep.raised "A strange breeze whistles... like a whisper of old codes." ∧
    ((konamiInit 0).push "down" true 0).1 ≠ PushStep.ret true ∧
    ((konamiInit 0).push "down" true 0).1 ≠ PushStep.ret false := by decide

/-- C9 amended: `push` raises `KonamiHint` exactly when the hint roll
succeeds on a non-empty token that neither completes the sequence (with
the tracker unlocked and uses available) nor leaves the rolling buffer a
prefix of the target; whenever the 15% roll fails, `push` returns a
boolean and cannot raise. -/
theorem push_raises_iff (st : KonamiManager) (value : String) (roll : Bool) (idx : ℕ) :
    ((∃ s, (st.push value roll idx).1 = PushStep.raised s) ↔
      (roll = true ∧ normalizeToken value ≠ "" ∧
        ¬(pushBuf st value = st.sequence ∧ st.locked = false ∧
            (st.max_uses ≤ 0 ∨ st.uses < st.max_uses)) ∧
        pushBuf st value ≠ st.sequence.take (pushBuf st value).length)) ∧
    (roll = false → ∃ b, (st.push value roll idx).1 = PushStep.ret b) := by
  unfold KonamiManager.push
  by_cases h1 : normalizeToken value = ""
  · rw [if_pos h1]
    exact ⟨by simp [h1], fun _ => ⟨false, rfl⟩⟩
  · rw [if_neg h1]
    by_cases h2 : pushBuf st value = st.sequence ∧ st.locked = false ∧
        (st.max_uses ≤ 0 ∨ st.uses < st.max_uses)
    · rw [if_pos h2]
      exact ⟨by simp [h2], fun _ => ⟨true, rfl⟩⟩
    · rw [if_neg h2]
      by_cases h3 : pushBuf st value ≠ st.sequence.take (pushBuf st value).length ∧
          roll = true
      · rw [if_pos h3]
        constructor
        · simp [h1, h2, h3.1, h3.2]
        · intro hr; rw [hr] at h3; simpa using h3.2
      · rw [if_neg h3]
        constructor
        · constructor
          · rintro ⟨s, hs⟩; simp at hs
          · rintro ⟨hr, -, -, hm⟩; exact absurd ⟨hm, hr⟩ h3
        · intro _; exact ⟨false, rfl⟩
